import Mathlib

/-!
Verification of the AOS (pintos-based) file-system core: shallow embedding of
the inode layer (`src/unnamed/part_002`), the free-space allocator
(`src/pintos-solution/src/filesys/free-map.c`), the file-handle layer
(`src/unnamed/part_001`), and the filesystem coordinator
(`src/pintos-solution/src/filesys/filesys.c`), together with proofs of the
spec's claims about them.

Machine integers: `off_t` is a signed 32-bit type in the source; sizes and
offsets used by the claims are small and non-negative, so they are embedded as
`Int` (overflow never occurs in the stated domains).  Sector numbers
(`block_sector_t`) are embedded as `Nat`.
-/

set_option linter.unusedVariables false

/-- `BLOCK_SECTOR_SIZE` from `devices/block.h`: the fixed sector size. -/
def BLOCK_SECTOR_SIZE : Int := 512

/-- `INODE_MAGIC` from `src/unnamed/part_002`. -/
def INODE_MAGIC : Nat := 0x494e4f44

/-- `bytes_to_sectors` from `src/unnamed/part_002`:
`DIV_ROUND_UP (size, BLOCK_SECTOR_SIZE)`, i.e. `(size + 511) / 512`.
For the non-negative sizes it is applied to, C truncated division agrees with
`Int` division; the result is a sector count, hence `Nat`. -/
def bytes_to_sectors (size : Int) : Nat :=
  ((size + (BLOCK_SECTOR_SIZE - 1)) / BLOCK_SECTOR_SIZE).toNat

/-- On-disk inode record `struct inode_disk` from `src/unnamed/part_002`
(the active contiguous-extent variant): first data sector, length in bytes,
magic constant, symlink flag.  The 124-word padding is not represented. -/
structure InodeDisk where
  start : Nat
  length : Int
  magic : Nat
  is_symlink : Bool
  deriving DecidableEq, Repr

/-- In-memory inode `struct inode` from `src/unnamed/part_002`.  The intrusive
`list_elem` is represented by membership in the open-inode list itself. -/
structure Inode where
  sector : Nat
  open_cnt : Nat
  removed : Bool
  deny_write_cnt : Nat
  data : InodeDisk
  deriving DecidableEq, Repr

/-- `inode_length` from `src/unnamed/part_002`. -/
def inode_length (inode : Inode) : Int := inode.data.length

/-- `inode_remove` from `src/unnamed/part_002`: sets the `removed` flag. -/
def inode_remove (inode : Inode) : Inode := { inode with removed := true }

/-- `inode_reopen` from `src/unnamed/part_002`: increments the open count. -/
def inode_reopen (inode : Inode) : Inode :=
  { inode with open_cnt := inode.open_cnt + 1 }

/-- `inode_deny_write` from `src/unnamed/part_002`: increments
`deny_write_cnt` (the `ASSERT deny_write_cnt <= open_cnt` is a precondition,
not a computation). -/
def inode_deny_write (inode : Inode) : Inode :=
  { inode with deny_write_cnt := inode.deny_write_cnt + 1 }

/-- `inode_allow_write` from `src/unnamed/part_002`: decrements
`deny_write_cnt`; the `ASSERT deny_write_cnt > 0` is a precondition, so the
`Nat` truncated subtraction agrees with the C decrement on the valid domain. -/
def inode_allow_write (inode : Inode) : Inode :=
  { inode with deny_write_cnt := inode.deny_write_cnt - 1 }

/-- `inode_get_symlink` from `src/unnamed/part_002`. -/
def inode_get_symlink (inode : Inode) : Bool := inode.data.is_symlink

/-- The sector-walking loop of `inode_read_at` from `src/unnamed/part_002`,
parameterised by the inode length.  Each iteration computes
`inode_left = length - offset`, `sector_left = 512 - offset % 512`,
`min_left = min inode_left sector_left`, `chunk_size = min size min_left`,
breaks when `chunk_size <= 0`, and otherwise advances by `chunk_size`.
The actual byte copies (direct or through the bounce buffer) touch only the
block device and the caller buffer; the returned value is `bytes_read`.
The bounce-buffer `malloc` is modelled as succeeding. -/
def read_loop (length size offset bytes_read : Int) : Int :=
  if h : 0 < size then
    if h2 : min size (min (length - offset) (BLOCK_SECTOR_SIZE - offset % BLOCK_SECTOR_SIZE)) ≤ 0 then
      bytes_read
    else
      read_loop length
        (size - min size (min (length - offset) (BLOCK_SECTOR_SIZE - offset % BLOCK_SECTOR_SIZE)))
        (offset + min size (min (length - offset) (BLOCK_SECTOR_SIZE - offset % BLOCK_SECTOR_SIZE)))
        (bytes_read + min size (min (length - offset) (BLOCK_SECTOR_SIZE - offset % BLOCK_SECTOR_SIZE)))
  else bytes_read
termination_by size.toNat
decreasing_by
  have h3 := Int.min_le_left size (min (length - offset) (BLOCK_SECTOR_SIZE - offset % BLOCK_SECTOR_SIZE))
  omega

/-- `inode_read_at` from `src/unnamed/part_002`: runs the sector-walking loop
starting from `bytes_read = 0` and returns the transferred byte count. -/
def inode_read_at (inode : Inode) (size offset : Int) : Int :=
  read_loop inode.data.length size offset 0

/-- The sector-walking loop of `inode_write_at` from `src/unnamed/part_002`:
identical chunk arithmetic to the read loop (the difference — direct writes
versus read-modify-write through the bounce buffer — touches only the block
device).  Returns `bytes_written`. -/
def write_loop (length size offset bytes_written : Int) : Int :=
  if h : 0 < size then
    if h2 : min size (min (length - offset) (BLOCK_SECTOR_SIZE - offset % BLOCK_SECTOR_SIZE)) ≤ 0 then
      bytes_written
    else
      write_loop length
        (size - min size (min (length - offset) (BLOCK_SECTOR_SIZE - offset % BLOCK_SECTOR_SIZE)))
        (offset + min size (min (length - offset) (BLOCK_SECTOR_SIZE - offset % BLOCK_SECTOR_SIZE)))
        (bytes_written + min size (min (length - offset) (BLOCK_SECTOR_SIZE - offset % BLOCK_SECTOR_SIZE)))
  else bytes_written
termination_by size.toNat
decreasing_by
  have h3 := Int.min_le_left size (min (length - offset) (BLOCK_SECTOR_SIZE - offset % BLOCK_SECTOR_SIZE))
  omega

/-- `inode_write_at` from `src/unnamed/part_002`: returns 0 immediately when
`deny_write_cnt` is nonzero, otherwise runs the sector-walking loop.  The
inode structure itself is never modified (no file growth), which the returned
pair makes explicit. -/
def inode_write_at (inode : Inode) (size offset : Int) : Int × Inode :=
  if inode.deny_write_cnt ≠ 0 then (0, inode)
  else (write_loop inode.data.length size offset 0, inode)

/-- The read loop transfers exactly `min size (length - offset)` bytes when
`0 ≤ offset ≤ length` and `0 ≤ size`. -/
theorem read_loop_spec (length : Int) : ∀ (k : Nat) (size offset bytes : Int),
    size.toNat ≤ k → 0 ≤ offset → offset ≤ length → 0 ≤ size →
    read_loop length size offset bytes = bytes + min size (length - offset) := by
  intro k
  induction k with
  | zero =>
    intro size offset bytes hk h1 h2 h3
    rw [read_loop]
    have hs : ¬ 0 < size := by omega
    simp only [hs, dite_false]
    have : size = 0 := by omega
    subst this
    simp only [Int.min_def]
    split <;> omega
  | succ n ih =>
    intro size offset bytes hk h1 h2 h3
    rw [read_loop]
    by_cases hs : 0 < size
    · simp only [hs, dite_true]
      have e1 : 0 ≤ offset % BLOCK_SECTOR_SIZE := Int.emod_nonneg _ (by norm_num [BLOCK_SECTOR_SIZE])
      have e2 : offset % BLOCK_SECTOR_SIZE < BLOCK_SECTOR_SIZE :=
        Int.emod_lt_of_pos _ (by norm_num [BLOCK_SECTOR_SIZE])
      by_cases hm : min size (min (length - offset) (BLOCK_SECTOR_SIZE - offset % BLOCK_SECTOR_SIZE)) ≤ 0
      · simp only [hm, dite_true]
        simp only [Int.min_def] at hm ⊢
        split_ifs at hm ⊢ <;> omega
      · simp only [hm, dite_false]
        have hc1 : min size (min (length - offset) (BLOCK_SECTOR_SIZE - offset % BLOCK_SECTOR_SIZE)) ≤ size :=
          Int.min_le_left _ _
        have hc2 : min size (min (length - offset) (BLOCK_SECTOR_SIZE - offset % BLOCK_SECTOR_SIZE)) ≤ length - offset := by
          calc min size (min (length - offset) (BLOCK_SECTOR_SIZE - offset % BLOCK_SECTOR_SIZE))
              ≤ min (length - offset) (BLOCK_SECTOR_SIZE - offset % BLOCK_SECTOR_SIZE) := Int.min_le_right _ _
            _ ≤ length - offset := Int.min_le_left _ _
        rw [ih]
        · have hc0 : 0 <
              min size (min (length - offset) (BLOCK_SECTOR_SIZE - offset % BLOCK_SECTOR_SIZE)) := by omega
          simp only [Int.min_def]
          split_ifs <;> omega
        · omega
        · omega
        · omega
        · omega
    · simp only [hs, dite_false]
      have : size = 0 := by omega
      subst this
      simp only [Int.min_def]
      split <;> omega

/-- The write loop computes the same transfer count as the read loop (the two
loops in the source have identical control flow and chunk arithmetic). -/
theorem write_loop_eq_read_loop (length : Int) : ∀ (k : Nat) (size offset bytes : Int),
    size.toNat ≤ k →
    write_loop length size offset bytes = read_loop length size offset bytes := by
  intro k
  induction k with
  | zero =>
    intro size offset bytes hk
    rw [write_loop, read_loop]
    have hs : ¬ 0 < size := by omega
    simp only [hs, dite_false]
  | succ n ih =>
    intro size offset bytes hk
    rw [write_loop, read_loop]
    by_cases hs : 0 < size
    · simp only [hs, dite_true]
      by_cases hm : min size (min (length - offset) (BLOCK_SECTOR_SIZE - offset % BLOCK_SECTOR_SIZE)) ≤ 0
      · simp only [hm, dite_true]
      · simp only [hm, dite_false]
        apply ih
        have h3 := Int.min_le_left size (min (length - offset) (BLOCK_SECTOR_SIZE - offset % BLOCK_SECTOR_SIZE))
        omega
    · simp only [hs, dite_false]

/-! ### Free-space bitmap

`free-map.c` builds on the kernel bitmap library (`lib/kernel/bitmap.c`),
which is part of this repository but not among the provided source files;
its primitives are modelled from the spec. -/

/-- Modelled from the spec: one bit per sector, bit = true means allocated;
`bitmap_set_multiple` sets the `cnt` bits starting at `start` one by one
(out-of-range indices are a contract violation and leave the list unchanged,
as `List.set` does). -/
def bitmap_set_multiple (bm : List Bool) (start : Nat) (cnt : Nat) (v : Bool) : List Bool :=
  match cnt with
  | 0 => bm
  | n + 1 => bitmap_set_multiple (bm.set start v) (start + 1) n v

/-- Modelled from the spec: the window `[s, s+cnt)` consists of clear
(unallocated) bits.  The default `true` makes an out-of-range index count as
not clear, so a true result also certifies `s + cnt ≤ bm.length` for
`cnt > 0`. -/
def bitmap_window_clear (bm : List Bool) (s cnt : Nat) : Bool :=
  (List.range cnt).all (fun j => !bm.getD (s + j) true)

/-- Modelled from the spec: "scan the bitmap for the first run of `count`
consecutive clear bits" — the lowest start position whose window is clear
(`BITMAP_ERROR` becomes `none`).  A request of 0 bits trivially succeeds at
position 0, matching the library's `bitmap_scan`. -/
def bitmap_scan (bm : List Bool) (cnt : Nat) : Option Nat :=
  (List.range (bm.length + 1 - cnt)).find? (fun s => bitmap_window_clear bm s cnt)

/-- Modelled from the spec: `bitmap_scan_and_flip` — scan for a clear run and
flip it to set, returning the start position and the updated bitmap. -/
def bitmap_scan_and_flip (bm : List Bool) (cnt : Nat) : Option (Nat × List Bool) :=
  (bitmap_scan bm cnt).map (fun s => (s, bitmap_set_multiple bm s cnt true))

/-- Modelled from the spec: the number of clear (unallocated) bits. -/
def bitmap_count_clear (bm : List Bool) : Nat :=
  (bm.filter (fun b => !b)).length

theorem bitmap_set_multiple_length (v : Bool) : ∀ (cnt start : Nat) (bm : List Bool),
    (bitmap_set_multiple bm start cnt v).length = bm.length := by
  intro cnt
  induction cnt with
  | zero => intro start bm; rfl
  | succ n ih =>
    intro start bm
    rw [bitmap_set_multiple, ih, List.length_set]

theorem list_set_getElem? (l : List Bool) (i j : Nat) (a : Bool) :
    (l.set i a)[j]? = if i = j ∧ i < l.length then some a else l[j]? := by
  rw [List.getElem?_set]
  by_cases h1 : i = j
  · subst h1
    by_cases h2 : i < l.length
    · simp [h2]
    · simp [h2, List.getElem?_eq_none (Nat.le_of_not_lt h2)]
  · simp [h1]

theorem bitmap_set_multiple_getElem? (v : Bool) : ∀ (cnt start : Nat) (bm : List Bool) (i : Nat),
    (bitmap_set_multiple bm start cnt v)[i]? =
      if start ≤ i ∧ i < start + cnt ∧ i < bm.length then some v else bm[i]? := by
  intro cnt
  induction cnt with
  | zero =>
    intro start bm i
    rw [bitmap_set_multiple]
    have : ¬ (start ≤ i ∧ i < start + 0 ∧ i < bm.length) := by omega
    rw [if_neg this]
  | succ n ih =>
    intro start bm i
    rw [bitmap_set_multiple, ih, List.length_set, list_set_getElem?]
    split_ifs <;> first | rfl | omega

theorem getD_true_eq_false_iff (l : List Bool) (i : Nat) :
    l.getD i true = false ↔ l[i]? = some false := by
  rw [List.getD_eq_getElem?_getD]
  cases h : l[i]? with
  | none => simp
  | some b => cases b <;> simp

theorem bitmap_window_clear_bits {bm : List Bool} {s cnt : Nat}
    (h : bitmap_window_clear bm s cnt = true) {j : Nat} (hj : j < cnt) :
    bm[s + j]? = some false := by
  rw [bitmap_window_clear, List.all_eq_true] at h
  have := h j (List.mem_range.mpr hj)
  rw [Bool.not_eq_true'] at this
  exact (getD_true_eq_false_iff bm (s + j)).mp this

/-- Flipping a clear run to set and then clearing it again restores the
bitmap bit for bit. -/
theorem bitmap_set_multiple_rollback {bm : List Bool} {s cnt : Nat}
    (h : bitmap_window_clear bm s cnt = true) :
    bitmap_set_multiple (bitmap_set_multiple bm s cnt true) s cnt false = bm := by
  apply List.ext_getElem?
  intro i
  rw [bitmap_set_multiple_getElem?, bitmap_set_multiple_length]
  by_cases hw : s ≤ i ∧ i < s + cnt ∧ i < bm.length
  · rw [if_pos hw]
    have hb := bitmap_window_clear_bits h (j := i - s) (by omega)
    rw [show s + (i - s) = i by omega] at hb
    exact hb.symm
  · rw [if_neg hw, bitmap_set_multiple_getElem?, if_neg hw]

theorem bitmap_scan_window {bm : List Bool} {cnt s : Nat}
    (h : bitmap_scan bm cnt = some s) : bitmap_window_clear bm s cnt = true := by
  rw [bitmap_scan] at h
  have hh := List.find?_some h
  simpa using hh

theorem bitmap_scan_ne_zero {bm : List Bool} {cnt s : Nat}
    (h0 : bm.getD 0 true = true) (hcnt : 1 ≤ cnt)
    (h : bitmap_scan bm cnt = some s) : s ≠ 0 := by
  intro hs
  subst hs
  have hb := bitmap_window_clear_bits (bitmap_scan_window h) (j := 0) (by omega)
  rw [show (0 : Nat) + 0 = 0 from rfl] at hb
  rw [List.getD_eq_getElem?_getD, hb] at h0
  simp at h0

/-- Free-map module state from `src/pintos-solution/src/filesys/free-map.c`:
the in-memory bitmap `free_map` and the persisted copy held by the backing
file `free_map_file` (`none` while the file is not open, as during
formatting). -/
structure FMState where
  bitmap : List Bool
  file : Option (List Bool)
  deriving DecidableEq, Repr

/-- `free_map_allocate` from `src/pintos-solution/src/filesys/free-map.c`
(lines 28-40): `bitmap_scan_and_flip`; if that succeeded and the backing
file is open but `bitmap_write` fails (`writeOk = false` models a failing
device write), roll the flipped bits back to clear and report failure;
otherwise persist and return the first sector of the run. -/
def free_map_allocate (cnt : Nat) (writeOk : Bool) (st : FMState) : Option Nat × FMState :=
  match bitmap_scan_and_flip st.bitmap cnt with
  | none => (none, st)
  | some (sector, bm) =>
    match st.file with
    | some _ =>
      if writeOk then (some sector, ⟨bm, some bm⟩)
      else (none, ⟨bitmap_set_multiple bm sector cnt false, st.file⟩)
    | none => (some sector, ⟨bm, none⟩)

/-- `free_map_release` from `src/pintos-solution/src/filesys/free-map.c`
(lines 43-48): clear the bits and persist the bitmap.  The
`ASSERT (bitmap_all ...)` precondition (all released bits currently set) is a
fatal contract check, not a branch; the result of `bitmap_write` is ignored
by the source, so a failing write (`writeOk = false`) leaves the persisted
copy stale. -/
def free_map_release (sector cnt : Nat) (writeOk : Bool) (st : FMState) : FMState :=
  ⟨bitmap_set_multiple st.bitmap sector cnt false,
   if writeOk then st.file.map (fun _ => bitmap_set_multiple st.bitmap sector cnt false)
   else st.file⟩

/-! ### Inode creation and the filesystem coordinator, projected to the free map

`inode_create` and `filesys_create` also write inode metadata and zeroed data
sectors to the block device; those writes do not touch the free map, which is
the state these claims are about, so the embedding tracks the free map and
models the environment-dependent outcomes (`calloc`, directory resolution,
`dir_add`, device writes during bitmap persistence) as boolean parameters. -/

/-- `inode_create` from `src/unnamed/part_002` (lines 83-117), projected to
the free map: fails if `calloc` fails (`callocOk = false`); otherwise asks
`free_map_allocate` for `bytes_to_sectors length` contiguous sectors and
succeeds iff that does.  The metadata write to `sector` and the zero-filling
of the data run touch only the block device. -/
def inode_create (sector : Nat) (length : Int) (callocOk writeOk : Bool) (st : FMState) :
    Bool × FMState :=
  if callocOk = false then (false, st)
  else
    match free_map_allocate (bytes_to_sectors length) writeOk st with
    | (none, st') => (false, st')
    | (some _, st') => (true, st')

/-- `filesys_create` from `src/pintos-solution/src/filesys/filesys.c`
(lines 42-61), projected to the free map.  `dirOk` models
`dir_open_path` succeeding, `dirAddOk` models `dir_add` succeeding; `w1`,
`w2`, `w3` model the bitmap-persistence writes of the three free-map calls in
program order.  `inode_sector` starts at 0 and is only set by a successful
`free_map_allocate`, so the `inode_sector != 0` release guard corresponds to
the matches below. -/
def filesys_create (initial_size : Int) (dirOk callocOk dirAddOk w1 w2 w3 : Bool)
    (st : FMState) : Bool × FMState :=
  if dirOk = false then (false, st)
  else
    match free_map_allocate 1 w1 st with
    | (none, st1) => (false, st1)
    | (some inode_sector, st1) =>
      match inode_create inode_sector initial_size callocOk w2 st1 with
      | (false, st2) =>
        (false, if inode_sector ≠ 0 then free_map_release inode_sector 1 w3 st2 else st2)
      | (true, st2) =>
        if dirAddOk then (true, st2)
        else (false, if inode_sector ≠ 0 then free_map_release inode_sector 1 w3 st2 else st2)

/-! ### Open-inode cache

`open_inodes` from `src/unnamed/part_002` is the list of live in-memory
inodes; C pointer identity corresponds to position in this list, and a
mutation through one pointer is a mutation of that list entry. -/

/-- In-place mutation of the cache entry for `sec` (the C code mutates the
found `struct inode` through its pointer; under the one-entry-per-sector
invariant the map below updates exactly that entry). -/
def cache_update (sec : Nat) (f : Inode → Inode) (cache : List Inode) : List Inode :=
  cache.map (fun j => if j.sector == sec then f j else j)

/-- `inode_open` from `src/unnamed/part_002` (lines 122-152): walk
`open_inodes` for an inode with this sector; if found, `inode_reopen` it and
return it; otherwise allocate a new inode, push it on the front of the list,
initialise `open_cnt = 1`, `deny_write_cnt = 0`, `removed = false`, and read
its on-disk record `d` from the device (`malloc` is modelled as
succeeding). -/
def inode_open (sec : Nat) (d : InodeDisk) (cache : List Inode) : Inode × List Inode :=
  match cache.find? (fun j => j.sector == sec) with
  | some i => (inode_reopen i, cache_update sec inode_reopen cache)
  | none =>
    (⟨sec, 1, false, 0, d⟩, ⟨sec, 1, false, 0, d⟩ :: cache)

/-- `inode_close` from `src/unnamed/part_002` (lines 171-193), acting on the
open-inode list and the free map: decrement the open count; if it reaches
zero, remove the inode from the list and, if `removed` is set, release the
inode's own sector (run of 1) and then its data run.  The C test
`--inode->open_cnt == 0` is `open_cnt = 1` on the valid domain
`open_cnt ≥ 1`.  Closing a sector with no cache entry cannot arise from a
live pointer and leaves the state unchanged. -/
def inode_close (sec : Nat) (w1 w2 : Bool) (cache : List Inode) (fm : FMState) :
    List Inode × FMState :=
  match cache.find? (fun j => j.sector == sec) with
  | none => (cache, fm)
  | some i =>
    if i.open_cnt = 1 then
      (cache.eraseP (fun j => j.sector == sec),
       if i.removed then
         free_map_release i.data.start (bytes_to_sectors i.data.length) w2
           (free_map_release i.sector 1 w1 fm)
       else fm)
    else
      (cache_update sec (fun j => { j with open_cnt := j.open_cnt - 1 }) cache, fm)

/-- The operations of the inode layer that touch the open-inode cache, as a
step type: open, close, and the pointer-based mutators acting on a cached
inode. -/
inductive FsOp where
  | opn (sector : Nat) (d : InodeDisk)
  | close (sector : Nat) (w1 w2 : Bool)
  | reopen (sector : Nat)
  | remove (sector : Nat)
  | deny_write (sector : Nat)
  | allow_write (sector : Nat)

/-- One step of the inode layer on (open-inode cache, free map). -/
def fs_apply (op : FsOp) (cache : List Inode) (fm : FMState) : List Inode × FMState :=
  match op with
  | .opn s d => ((inode_open s d cache).2, fm)
  | .close s w1 w2 => inode_close s w1 w2 cache fm
  | .reopen s => (cache_update s inode_reopen cache, fm)
  | .remove s => (cache_update s inode_remove cache, fm)
  | .deny_write s => (cache_update s inode_deny_write cache, fm)
  | .allow_write s => (cache_update s inode_allow_write cache, fm)

/-! ### File handles -/

/-- `struct file` from the file layer (`src/unnamed/part_001`): position
cursor and the handle-local deny-write flag.  The wrapped inode is carried
alongside as the second component of the pairs below. -/
structure FileH where
  pos : Int
  deny_write : Bool
  deriving DecidableEq, Repr

/-- `file_deny_write` from `src/unnamed/part_001` (lines 122-130): only when
the handle's local flag is clear, set it and increment the inode's shared
`deny_write_cnt`. -/
def file_deny_write (f : FileH) (inode : Inode) : FileH × Inode :=
  if f.deny_write = false then ({ f with deny_write := true }, inode_deny_write inode)
  else (f, inode)

/-- `file_allow_write` from `src/unnamed/part_001` (lines 135-143): only when
the handle's local flag is set, clear it and decrement the inode's shared
`deny_write_cnt`. -/
def file_allow_write (f : FileH) (inode : Inode) : FileH × Inode :=
  if f.deny_write = true then ({ f with deny_write := false }, inode_allow_write inode)
  else (f, inode)

/-! ### Claim C2 and C5: read/write transfer counts -/

/-- C2: for every inode with deny-write-count zero, length `L`, offset with
`0 ≤ offset ≤ L`, and requested size `S ≥ 0`, `inode_write_at` returns
`min S (L - offset)` — a request extending beyond the current length is
truncated, never extends the file — and the inode's length is unchanged. -/
theorem inode_write_at_truncates (i : Inode) (S offset : Int)
    (hd : i.deny_write_cnt = 0) (h0 : 0 ≤ offset) (h1 : offset ≤ inode_length i)
    (h2 : 0 ≤ S) :
    (inode_write_at i S offset).1 = min S (inode_length i - offset) ∧
    inode_length (inode_write_at i S offset).2 = inode_length i := by
  constructor
  · rw [inode_write_at]
    simp only [hd, ne_eq, not_true_eq_false, if_false]
    rw [write_loop_eq_read_loop i.data.length S.toNat S offset 0 (le_refl _)]
    rw [read_loop_spec i.data.length S.toNat S offset 0 (le_refl _) h0 h1 h2]
    rw [inode_length]
    omega
  · rw [inode_write_at]
    by_cases h : i.deny_write_cnt ≠ 0 <;> simp [h]

/-- C2 witness: a concrete inode of length 1000 with deny-write-count zero; a
write of 600 bytes at offset 600 is truncated to 400 bytes and the length is
unchanged. -/
theorem inode_write_at_truncates_witness :
    (inode_write_at ⟨7, 1, false, 0, ⟨10, 1000, INODE_MAGIC, false⟩⟩ 600 600).1
        = min 600 (1000 - 600) ∧
    inode_length (inode_write_at ⟨7, 1, false, 0, ⟨10, 1000, INODE_MAGIC, false⟩⟩ 600 600).2
        = 1000 :=
  inode_write_at_truncates ⟨7, 1, false, 0, ⟨10, 1000, INODE_MAGIC, false⟩⟩ 600 600
    (by decide) (by decide) (by decide) (by decide)

/-- C5: for every inode with length `L`, offset with `0 ≤ offset ≤ L`, and
requested size `S ≥ 0`, `inode_read_at` transfers exactly
`min S (L - offset)` bytes and never reads past the logical end of file
(`offset + result ≤ L`); a short transfer at end-of-file is the returned
count, not an error. -/
theorem inode_read_at_short_transfer (i : Inode) (S offset : Int)
    (h0 : 0 ≤ offset) (h1 : offset ≤ inode_length i) (h2 : 0 ≤ S) :
    inode_read_at i S offset = min S (inode_length i - offset) ∧
    offset + inode_read_at i S offset ≤ inode_length i := by
  have hr : inode_read_at i S offset = min S (inode_length i - offset) := by
    rw [inode_read_at]
    rw [read_loop_spec i.data.length S.toNat S offset 0 (le_refl _) h0 h1 h2]
    rw [inode_length]
    omega
  refine ⟨hr, ?_⟩
  rw [hr, Int.min_def]
  split <;> omega

/-- C5 witness: reading 600 bytes at offset 600 of a 1000-byte inode
transfers 400 bytes and stops at the end of file. -/
theorem inode_read_at_short_transfer_witness :
    inode_read_at ⟨7, 1, false, 0, ⟨10, 1000, INODE_MAGIC, false⟩⟩ 600 600
        = min 600 (1000 - 600) ∧
    600 + inode_read_at ⟨7, 1, false, 0, ⟨10, 1000, INODE_MAGIC, false⟩⟩ 600 600 ≤ 1000 :=
  inode_read_at_short_transfer ⟨7, 1, false, 0, ⟨10, 1000, INODE_MAGIC, false⟩⟩ 600 600
    (by decide) (by decide) (by decide)

/-! ### Claim C9: file_deny_write idempotence -/

/-- C9: `file_deny_write` is idempotent with respect to the handle's local
deny-write flag — calling it twice leaves the handle and the inode's shared
deny-write-count exactly as calling it once — and likewise only the first
`file_allow_write` after a deny decrements the shared counter. -/
theorem file_deny_write_idempotent (f : FileH) (inode : Inode) :
    file_deny_write (file_deny_write f inode).1 (file_deny_write f inode).2
      = file_deny_write f inode ∧
    file_allow_write
        (file_allow_write (file_deny_write f inode).1 (file_deny_write f inode).2).1
        (file_allow_write (file_deny_write f inode).1 (file_deny_write f inode).2).2
      = file_allow_write (file_deny_write f inode).1 (file_deny_write f inode).2 := by
  cases hf : f.deny_write <;>
    simp [file_deny_write, file_allow_write, inode_deny_write, inode_allow_write, hf]

/-! ### Claims C4 and C6: allocator durability and roundtrip -/

/-- Case analysis of `free_map_allocate`: it either fails leaving the
in-memory bitmap as before, or succeeds at the scan position with the run
flipped to set. -/
theorem free_map_allocate_cases (cnt : Nat) (w : Bool) (st : FMState) :
    (∃ st', free_map_allocate cnt w st = (none, st') ∧ st'.bitmap = st.bitmap) ∨
    (∃ s st', free_map_allocate cnt w st = (some s, st') ∧
      bitmap_scan st.bitmap cnt = some s ∧
      st'.bitmap = bitmap_set_multiple st.bitmap s cnt true) := by
  cases hsc : bitmap_scan st.bitmap cnt with
  | none =>
    left
    refine ⟨st, ?_, rfl⟩
    rw [free_map_allocate, bitmap_scan_and_flip, hsc]
    rfl
  | some s =>
    have hwin := bitmap_scan_window hsc
    have hflip : bitmap_scan_and_flip st.bitmap cnt
        = some (s, bitmap_set_multiple st.bitmap s cnt true) := by
      rw [bitmap_scan_and_flip, hsc]; rfl
    cases hf : st.file with
    | none =>
      right
      refine ⟨s, FMState.mk (bitmap_set_multiple st.bitmap s cnt true) none, ?_, rfl, rfl⟩
      rw [free_map_allocate, hflip, hf]
    | some p =>
      cases w with
      | true =>
        right
        refine ⟨s, FMState.mk (bitmap_set_multiple st.bitmap s cnt true)
          (some (bitmap_set_multiple st.bitmap s cnt true)), ?_, rfl, rfl⟩
        rw [free_map_allocate, hflip, hf]
        rfl
      | false =>
        left
        refine ⟨FMState.mk
          (bitmap_set_multiple (bitmap_set_multiple st.bitmap s cnt true) s cnt false)
          (some p), ?_, ?_⟩
        · rw [free_map_allocate, hflip, hf]
          rfl
        · exact bitmap_set_multiple_rollback hwin

/-- C4: `free_map_allocate` is all-or-nothing with respect to durability —
with the backing file open, a successful allocation leaves the persisted
copy equal to the in-memory bitmap; a failing persistence write rolls the
flipped bits back and reports failure, leaving the module state exactly as
before the call; and every successful (persisted) `free_map_release`
likewise reconciles the persisted copy with the in-memory bitmap. -/
theorem free_map_allocate_all_or_nothing (st : FMState) (p : List Bool)
    (hf : st.file = some p) :
    (∀ (cnt s : Nat) (st' : FMState), free_map_allocate cnt true st = (some s, st') →
        st'.file = some st'.bitmap)
    ∧ (∀ cnt : Nat, free_map_allocate cnt false st = (none, st))
    ∧ (∀ (s cnt : Nat),
        (free_map_release s cnt true st).file
          = some ((free_map_release s cnt true st).bitmap)) := by
  refine ⟨?_, ?_, ?_⟩
  · intro cnt s st' h
    rw [free_map_allocate] at h
    cases hsc : bitmap_scan_and_flip st.bitmap cnt with
    | none => rw [hsc] at h; exact absurd h (by simp)
    | some pr =>
      obtain ⟨sec, bm⟩ := pr
      rw [hsc, hf] at h
      simp only [if_true] at h
      obtain ⟨h1, h2⟩ := Prod.mk.injEq .. ▸ h
      subst h2
      rfl
  · intro cnt
    cases hsc : bitmap_scan st.bitmap cnt with
    | none =>
      rw [free_map_allocate, bitmap_scan_and_flip, hsc]
      rfl
    | some s =>
      have hwin := bitmap_scan_window hsc
      have hflip : bitmap_scan_and_flip st.bitmap cnt
          = some (s, bitmap_set_multiple st.bitmap s cnt true) := by
        rw [bitmap_scan_and_flip, hsc]; rfl
      rw [free_map_allocate, hflip, hf]
      simp only [Bool.false_eq_true, if_false]
      rw [bitmap_set_multiple_rollback hwin]
      cases st with
      | mk bm file => simp only at hf; rw [hf]
  · intro s cnt
    rw [free_map_release, hf]
    rfl

/-- C4 witness: a mounted state whose backing file holds `[true, true,
false]`; a persisted release reconciles file and bitmap, and an allocation
whose persistence write fails reports failure and leaves the state
untouched. -/
theorem free_map_allocate_all_or_nothing_witness :
    free_map_allocate 1 false ⟨[true, true, false], some [true, true, false]⟩
        = (none, ⟨[true, true, false], some [true, true, false]⟩) ∧
    (free_map_release 2 1 true ⟨[true, true, false], some [true, true, false]⟩).file
        = some ((free_map_release 2 1 true ⟨[true, true, false], some [true, true, false]⟩).bitmap) :=
  ⟨(free_map_allocate_all_or_nothing ⟨[true, true, false], some [true, true, false]⟩
      [true, true, false] rfl).2.1 1,
   (free_map_allocate_all_or_nothing ⟨[true, true, false], some [true, true, false]⟩
      [true, true, false] rfl).2.2 2 1⟩

/-- C6 counterexample: on the fragmented bitmap `[true, false, true, false]`
there are 2 clear bits, yet `free_map_allocate 2` fails because no run of 2
consecutive clear bits exists — so `count ≤ free_sectors` does not imply
that allocation succeeds. -/
theorem free_map_allocate_count_cex :
    2 ≤ bitmap_count_clear [true, false, true, false] ∧
    (free_map_allocate 2 true ⟨[true, false, true, false], none⟩).1 = none := by
  decide

/-- C6 (amended): whenever the bitmap contains a run of `cnt` consecutive
clear bits (that is, `bitmap_scan` succeeds) and the persistence write
succeeds, `free_map_allocate cnt` succeeds at that position, and an
immediately following `free_map_release` of the returned sector and count
restores the in-memory bitmap to exactly its prior state, bit for bit. -/
theorem free_map_alloc_release_roundtrip (st : FMState) (cnt s : Nat) (w : Bool)
    (h : bitmap_scan st.bitmap cnt = some s) :
    (free_map_allocate cnt true st).1 = some s ∧
    (free_map_release s cnt w (free_map_allocate cnt true st).2).bitmap = st.bitmap := by
  have hwin := bitmap_scan_window h
  have hflip : bitmap_scan_and_flip st.bitmap cnt
      = some (s, bitmap_set_multiple st.bitmap s cnt true) := by
    rw [bitmap_scan_and_flip, h]; rfl
  have hbm : (free_map_allocate cnt true st).1 = some s ∧
      (free_map_allocate cnt true st).2.bitmap
        = bitmap_set_multiple st.bitmap s cnt true := by
    rw [free_map_allocate, hflip]
    cases hf : st.file <;> simp
  refine ⟨hbm.1, ?_⟩
  rw [free_map_release]
  simp only
  rw [hbm.2]
  exact bitmap_set_multiple_rollback hwin

/-- C6 amended witness: on `[true, false, false]` a 2-sector run exists at
sector 1; allocation succeeds there and the immediate release restores the
bitmap. -/
theorem free_map_alloc_release_roundtrip_witness :
    (free_map_allocate 2 true ⟨[true, false, false], none⟩).1 = some 1 ∧
    (free_map_release 1 2 true (free_map_allocate 2 true ⟨[true, false, false], none⟩).2).bitmap
      = [true, false, false] :=
  free_map_alloc_release_roundtrip ⟨[true, false, false], none⟩ 2 1 true (by decide)

/-! ### Claim C1: filesys_create failure handling -/

/-- Case analysis of `inode_create` on the free map: it either fails with
the bitmap unchanged, or succeeds having flipped the data run found by the
scan. -/
theorem inode_create_cases (sec : Nat) (len : Int) (callocOk w : Bool) (st : FMState) :
    (∃ st2, inode_create sec len callocOk w st = (false, st2) ∧ st2.bitmap = st.bitmap) ∨
    (∃ d st2, inode_create sec len callocOk w st = (true, st2) ∧
      bitmap_scan st.bitmap (bytes_to_sectors len) = some d ∧
      st2.bitmap = bitmap_set_multiple st.bitmap d (bytes_to_sectors len) true) := by
  cases callocOk with
  | false =>
    left
    exact ⟨st, by rw [inode_create]; rfl, rfl⟩
  | true =>
    rcases free_map_allocate_cases (bytes_to_sectors len) w st with
      ⟨st', he, hb⟩ | ⟨d, st', he, hscan, hb⟩
    · left
      refine ⟨st', ?_, hb⟩
      rw [inode_create, he]
      rfl
    · right
      refine ⟨d, st', ?_, hscan, hb⟩
      rw [inode_create, he]
      rfl

/-- Releasing the inode sector after a successful inode-sector allocation and
a successful data-run allocation leaves exactly the data run additionally
set: the inode's own sector is returned, the data run is not. -/
theorem orphan_bitmap_eq {bm : List Bool} {s d dcnt : Nat}
    (hs : bitmap_window_clear bm s 1 = true)
    (hd : bitmap_window_clear (bitmap_set_multiple bm s 1 true) d dcnt = true) :
    bitmap_set_multiple
        (bitmap_set_multiple (bitmap_set_multiple bm s 1 true) d dcnt true) s 1 false
      = bitmap_set_multiple bm d dcnt true := by
  have hbs : bm[s]? = some false := by
    have := bitmap_window_clear_bits hs (j := 0) (by omega)
    rwa [Nat.add_zero] at this
  have hslen : s < bm.length := (List.getElem?_eq_some.mp hbs).1
  have hsd : ¬ (d ≤ s ∧ s < d + dcnt) := by
    rintro ⟨hd1, hd2⟩
    have hw := bitmap_window_clear_bits hd (j := s - d) (by omega)
    rw [show d + (s - d) = s by omega] at hw
    rw [bitmap_set_multiple_getElem? true] at hw
    rw [if_pos ⟨le_refl s, by omega, hslen⟩] at hw
    exact absurd hw (by simp)
  apply List.ext_getElem?
  intro i
  rw [bitmap_set_multiple_getElem? false, bitmap_set_multiple_length,
    bitmap_set_multiple_length, bitmap_set_multiple_getElem? true,
    bitmap_set_multiple_length, bitmap_set_multiple_getElem? true,
    bitmap_set_multiple_getElem? true]
  by_cases hil : i < bm.length
  · by_cases his : i = s
    · subst his
      rw [if_pos ⟨le_refl i, by omega, hil⟩]
      rw [if_neg (by omega)]
      exact hbs.symm
    · by_cases hid : d ≤ i ∧ i < d + dcnt
      · rw [if_neg (by omega), if_pos ⟨hid.1, hid.2, hil⟩, if_pos ⟨hid.1, hid.2, hil⟩]
      · rw [if_neg (by omega), if_neg (by omega), if_neg (by omega), if_neg (by omega)]
  · rw [if_neg (by omega), if_neg (by omega), if_neg (by omega), if_neg (by omega)]

/-- C1 counterexample: on the device bitmap `[true, true, false, false,
false]` (sectors 0 and 1 reserved), `filesys_create` of a 1-byte file whose
`dir_add` fails returns false, yet sector 3 — the data-run sector allocated
by the successful `inode_create` — remains marked allocated, an additional
allocated sector compared to before the call. -/
theorem filesys_create_orphans_data_run_cex :
    (filesys_create 1 true true false true true true
        ⟨[true, true, false, false, false], some [true, true, false, false, false]⟩).1
      = false ∧
    (filesys_create 1 true true false true true true
        ⟨[true, true, false, false, false], some [true, true, false, false, false]⟩).2.bitmap.getD 3 false
      = true ∧
    ([true, true, false, false, false] : List Bool).getD 3 false = false := by
  decide

/-- C1 (amended): when `filesys_create` fails, the sector allocated for the
inode itself never remains allocated — a failure in directory resolution,
sector allocation, or `inode_create` leaves the in-memory free map bit for
bit unchanged; but when `dir_add` fails after a successful `inode_create`
(the runs below differ only in the `dir_add` outcome), the call still
returns false while the data-run sectors allocated by `inode_create` remain
marked allocated (orphaned) — only the inode's own sector is released.
Hypothesis: sector 0 is marked allocated, as `free_map_init` guarantees. -/
theorem filesys_create_release_amended (st : FMState) (len : Int)
    (dirOk callocOk w1 w2 w3 : Bool)
    (h0 : st.bitmap.getD 0 true = true) :
    ((filesys_create len dirOk callocOk true w1 w2 w3 st).1 = false →
      (filesys_create len dirOk callocOk true w1 w2 w3 st).2.bitmap = st.bitmap)
    ∧ ((filesys_create len dirOk callocOk true w1 w2 w3 st).1 = true →
      (filesys_create len dirOk callocOk false w1 w2 w3 st).1 = false ∧
      ∃ d : Nat, (filesys_create len dirOk callocOk false w1 w2 w3 st).2.bitmap
          = bitmap_set_multiple st.bitmap d (bytes_to_sectors len) true) := by
  cases dirOk with
  | false =>
    constructor
    · intro _
      simp [filesys_create]
    · intro hsucc
      simp [filesys_create] at hsucc
  | true =>
    rcases free_map_allocate_cases 1 w1 st with ⟨st1, he, hb⟩ | ⟨s, st1, he, hscan, hb⟩
    · constructor
      · intro _
        simp only [filesys_create, he]
        simpa using hb
      · intro hsucc
        simp only [filesys_create, he] at hsucc
        simp at hsucc
    · have hwin1 := bitmap_scan_window hscan
      have hs0 : s ≠ 0 := bitmap_scan_ne_zero h0 (le_refl 1) hscan
      rcases inode_create_cases s len callocOk w2 st1 with
        ⟨st2, hce, hcb⟩ | ⟨d, st2, hce, hdscan, hcb⟩
      · constructor
        · intro _
          simp only [filesys_create, he, hce]
          simp only [ne_eq, hs0, not_false_eq_true, if_true]
          show (free_map_release s 1 w3 st2).bitmap = st.bitmap
          rw [free_map_release]
          show bitmap_set_multiple st2.bitmap s 1 false = st.bitmap
          rw [hcb, hb]
          exact bitmap_set_multiple_rollback hwin1
        · intro hsucc
          simp only [filesys_create, he, hce] at hsucc
          simp at hsucc
      · have hwin2 : bitmap_window_clear (bitmap_set_multiple st.bitmap s 1 true) d
            (bytes_to_sectors len) = true := by
          have := bitmap_scan_window hdscan
          rwa [hb] at this
        constructor
        · intro hfail
          simp only [filesys_create, he, hce] at hfail
          simp at hfail
        · intro _
          simp only [filesys_create, he, hce]
          refine ⟨by simp, d, ?_⟩
          simp only [ne_eq, hs0, not_false_eq_true, if_true]
          show (free_map_release s 1 w3 st2).bitmap
              = bitmap_set_multiple st.bitmap d (bytes_to_sectors len) true
          rw [free_map_release]
          show bitmap_set_multiple st2.bitmap s 1 false
              = bitmap_set_multiple st.bitmap d (bytes_to_sectors len) true
          rw [hcb, hb]
          exact orphan_bitmap_eq hwin1 hwin2

/-- C1 witness for the amended theorem: on a concrete mounted state, a
directory-resolution failure leaves the free map unchanged. -/
theorem filesys_create_release_amended_witness :
    (filesys_create 1 false true true true true true
        ⟨[true, true, false, false, false], some [true, true, false, false, false]⟩).2.bitmap
      = [true, true, false, false, false] :=
  (filesys_create_release_amended
      ⟨[true, true, false, false, false], some [true, true, false, false, false]⟩
      1 false true true true true (by decide)).1 (by decide)

/-! ### Claim C3: deferred reclamation -/

/-- C3: marking an inode removed changes neither reads nor writes through a
still-open reference; an `inode_close` that leaves the open count positive
returns no sector to the free map; and the last close of a removed inode
releases exactly the inode's own sector (a run of length 1) followed by its
contiguous data run of `ceil(length / sector_size)` sectors. -/
theorem inode_deferred_reclamation (i : Inode) (cache : List Inode) (fm : FMState)
    (w1 w2 : Bool) (S offset : Int) :
    (inode_read_at (inode_remove i) S offset = inode_read_at i S offset ∧
      (inode_write_at (inode_remove i) S offset).1 = (inode_write_at i S offset).1)
    ∧ (cache.find? (fun j => j.sector == i.sector) = some i → 2 ≤ i.open_cnt →
        (inode_close i.sector w1 w2 cache fm).2 = fm)
    ∧ (cache.find? (fun j => j.sector == i.sector) = some i → i.open_cnt = 1 →
        i.removed = true →
        (inode_close i.sector w1 w2 cache fm).2.bitmap
          = bitmap_set_multiple (bitmap_set_multiple fm.bitmap i.sector 1 false)
              i.data.start (bytes_to_sectors i.data.length) false) := by
  refine ⟨⟨rfl, ?_⟩, ?_, ?_⟩
  · by_cases hd : i.deny_write_cnt ≠ 0 <;>
      simp [inode_write_at, inode_remove, hd]
  · intro hf h2
    simp only [inode_close, hf]
    rw [if_neg (by omega)]
  · intro hf h1 hr
    simp only [inode_close, hf]
    rw [if_pos h1, hr]
    rfl

/-- C3 witness: with sector 2 as the inode sector and sectors 3-4 as the
600-byte data run, a non-final close releases nothing and the final close of
a removed inode clears exactly those three bits. -/
theorem inode_deferred_reclamation_witness :
    (inode_close 2 true true [⟨2, 2, false, 0, ⟨3, 600, INODE_MAGIC, false⟩⟩]
        ⟨[true, true, true, true, true], none⟩).2
      = ⟨[true, true, true, true, true], none⟩ ∧
    (inode_close 2 true true [⟨2, 1, true, 0, ⟨3, 600, INODE_MAGIC, false⟩⟩]
        ⟨[true, true, true, true, true], none⟩).2.bitmap
      = bitmap_set_multiple (bitmap_set_multiple [true, true, true, true, true] 2 1 false)
          3 (bytes_to_sectors 600) false :=
  ⟨(inode_deferred_reclamation ⟨2, 2, false, 0, ⟨3, 600, INODE_MAGIC, false⟩⟩
      [⟨2, 2, false, 0, ⟨3, 600, INODE_MAGIC, false⟩⟩]
      ⟨[true, true, true, true, true], none⟩ true true 0 0).2.1 (by decide) (by decide),
   (inode_deferred_reclamation ⟨2, 1, true, 0, ⟨3, 600, INODE_MAGIC, false⟩⟩
      [⟨2, 1, true, 0, ⟨3, 600, INODE_MAGIC, false⟩⟩]
      ⟨[true, true, true, true, true], none⟩ true true 0 0).2.2
      (by decide) (by decide) (by decide)⟩

/-! ### Claim C7: one in-memory inode per sector -/

/-- Updating the cache entry for a sector with a sector-preserving function
leaves the list of cached sector numbers unchanged. -/
theorem cache_update_sectors (sec : Nat) (f : Inode → Inode)
    (hf : ∀ j, (f j).sector = j.sector) (cache : List Inode) :
    (cache_update sec f cache).map Inode.sector = cache.map Inode.sector := by
  rw [cache_update, List.map_map]
  apply List.map_congr_left
  intro j hj
  simp only [Function.comp]
  by_cases h : j.sector == sec
  · simp [h, hf]
  · simp [h]

/-- Looking up a sector after a sector-preserving cache update finds the
updated entry. -/
theorem find?_cache_update (sec : Nat) (f : Inode → Inode)
    (hf : ∀ j, (f j).sector = j.sector) (cache : List Inode) :
    (cache_update sec f cache).find? (fun j => j.sector == sec)
      = (cache.find? (fun j => j.sector == sec)).map f := by
  rw [cache_update, List.find?_map]
  have hp : ((fun j : Inode => j.sector == sec) ∘ fun j => if j.sector == sec then f j else j)
      = fun j => j.sector == sec := by
    funext j
    by_cases h : j.sector == sec <;> simp [Function.comp, h, hf]
  rw [hp]
  cases hfind : cache.find? (fun j => j.sector == sec) with
  | none => rfl
  | some i =>
    have hi := List.find?_some hfind
    show some (if (i.sector == sec) = true then f i else i) = some (f i)
    rw [if_pos hi]

/-- Every step of the inode layer preserves the at-most-one-inode-per-sector
invariant of the open-inode cache. -/
theorem fs_apply_nodup (op : FsOp) (cache : List Inode) (fm : FMState)
    (h : (cache.map Inode.sector).Nodup) :
    (((fs_apply op cache fm).1).map Inode.sector).Nodup := by
  cases op with
  | opn s d =>
    cases hfind : cache.find? (fun j => j.sector == s) with
    | some i =>
      simp only [fs_apply, inode_open, hfind]
      rw [cache_update_sectors s inode_reopen (fun j => rfl) cache]
      exact h
    | none =>
      simp only [fs_apply, inode_open, hfind, List.map_cons]
      refine List.Nodup.cons ?_ h
      intro hmem
      obtain ⟨j, hj, hjs⟩ := List.mem_map.mp hmem
      have := List.find?_eq_none.mp hfind j hj
      simp [hjs] at this
  | close s w1 w2 =>
    cases hfind : cache.find? (fun j => j.sector == s) with
    | none => simp only [fs_apply, inode_close, hfind]; exact h
    | some i =>
      simp only [fs_apply, inode_close, hfind]
      by_cases h1 : i.open_cnt = 1
      · rw [if_pos h1]
        exact h.sublist ((List.eraseP_sublist cache).map Inode.sector)
      · rw [if_neg h1]
        rw [cache_update_sectors s (fun j => { j with open_cnt := j.open_cnt - 1 })
          (fun j => rfl) cache]
        exact h
  | reopen s =>
    simp only [fs_apply]
    rw [cache_update_sectors s inode_reopen (fun j => rfl) cache]
    exact h
  | remove s =>
    simp only [fs_apply]
    rw [cache_update_sectors s inode_remove (fun j => rfl) cache]
    exact h
  | deny_write s =>
    simp only [fs_apply]
    rw [cache_update_sectors s inode_deny_write (fun j => rfl) cache]
    exact h
  | allow_write s =>
    simp only [fs_apply]
    rw [cache_update_sectors s inode_allow_write (fun j => rfl) cache]
    exact h

/-- C7: the open-inode cache holds at most one in-memory inode per sector —
an invariant preserved by every operation of the layer; a second
`inode_open` of a cached sector returns the shared cached instance with its
open count incremented instead of creating a new one (the cached sector list
is unchanged and the cache entry is the reopened instance); and a
deny-write performed through that shared instance is observed by any later
lookup of the same sector. -/
theorem inode_cache_unique_per_sector :
    (∀ (op : FsOp) (cache : List Inode) (fm : FMState),
        (cache.map Inode.sector).Nodup →
        (((fs_apply op cache fm).1).map Inode.sector).Nodup)
    ∧ (∀ (sec : Nat) (d : InodeDisk) (cache : List Inode) (i : Inode),
        cache.find? (fun j => j.sector == sec) = some i →
        (inode_open sec d cache).1 = inode_reopen i ∧
        ((inode_open sec d cache).2).map Inode.sector = cache.map Inode.sector ∧
        ((inode_open sec d cache).2).find? (fun j => j.sector == sec)
          = some (inode_reopen i))
    ∧ (∀ (sec : Nat) (cache : List Inode) (i : Inode),
        cache.find? (fun j => j.sector == sec) = some i →
        (cache_update sec inode_deny_write cache).find? (fun j => j.sector == sec)
          = some (inode_deny_write i)) := by
  refine ⟨fs_apply_nodup, ?_, ?_⟩
  · intro sec d cache i hfind
    refine ⟨?_, ?_, ?_⟩
    · simp only [inode_open, hfind]
    · simp only [inode_open, hfind]
      exact cache_update_sectors sec inode_reopen (fun j => rfl) cache
    · simp only [inode_open, hfind]
      rw [find?_cache_update sec inode_reopen (fun j => rfl) cache, hfind]
      rfl
  · intro sec cache i hfind
    rw [find?_cache_update sec inode_deny_write (fun j => rfl) cache, hfind]
    rfl

/-- C7 witness: on a one-entry cache for sector 4, a reopen step preserves
the invariant and a second open returns the shared instance reopened. -/
theorem inode_cache_unique_per_sector_witness :
    (((fs_apply (FsOp.reopen 4) [⟨4, 1, false, 0, ⟨9, 100, INODE_MAGIC, false⟩⟩]
        ⟨[], none⟩).1).map Inode.sector).Nodup ∧
    (inode_open 4 ⟨9, 100, INODE_MAGIC, false⟩
        [⟨4, 1, false, 0, ⟨9, 100, INODE_MAGIC, false⟩⟩]).1
      = inode_reopen ⟨4, 1, false, 0, ⟨9, 100, INODE_MAGIC, false⟩⟩ :=
  ⟨inode_cache_unique_per_sector.1 (FsOp.reopen 4)
      [⟨4, 1, false, 0, ⟨9, 100, INODE_MAGIC, false⟩⟩] ⟨[], none⟩ (by decide),
   (inode_cache_unique_per_sector.2.1 4 ⟨9, 100, INODE_MAGIC, false⟩
      [⟨4, 1, false, 0, ⟨9, 100, INODE_MAGIC, false⟩⟩]
      ⟨4, 1, false, 0, ⟨9, 100, INODE_MAGIC, false⟩⟩ (by decide)).1⟩

/-! ### Path-level model: open, create, symlink

`filesys_open`, `filesys_create` and `filesys_symlink` from
`src/pintos-solution/src/filesys/filesys.c` resolve paths through the
external directory module (`dir_open_path`, `dir_lookup`, `dir_add`), which
is part of this repository but not among the provided source files; the
directory is modelled from the spec's directory-module contract.  The model
covers flat root-directory paths (no `/`), for which `split_path_filename`
yields the root directory and the whole name as the leaf; path resolution
returns the resolved inode's sector number — two opens resolving to the same
sector denote the same file content.  The C recursion of `filesys_open`
through symlink targets has no depth guard in the source; the embedding
makes it total with an explicit `fuel` parameter (a call that would recurse
past the fuel returns `none`). -/

namespace Path

/-- `NAME_MAX` from the directory module: maximum file-name length; a
symlink stores its target in a file of `NAME_MAX + 1 = 15` bytes. -/
def NAME_MAX : Nat := 14

/-- One file as path resolution sees it: the in-memory removed flag, the
symlink flag of the on-disk record, and the stored target-path content (the
first `NAME_MAX + 1` bytes of the file, read back as a string). -/
structure SymRec where
  removed : Bool
  is_symlink : Bool
  target : String
  deriving DecidableEq, Repr

/-- Filesystem state for path resolution: the root directory (name to inode
sector), the per-sector file records, and the next free sector (inode
sectors are allocated in increasing order; `free_map_allocate` is modelled
as handing out `nextSector`). -/
structure LinkFS where
  dir : List (String × Nat)
  recs : List (Nat × SymRec)
  nextSector : Nat
  deriving DecidableEq, Repr

/-- `inode_write_at` of the `NAME_MAX + 1`-byte target buffer into the
15-byte symlink file, read back as a C string: a target of at most
`NAME_MAX` characters round-trips exactly (its terminator fits); a longer
target is stored truncated with no terminator. -/
def store_target (t : String) : String :=
  if t.length ≤ NAME_MAX then t else t.take (NAME_MAX + 1)

/-- In-place update of the record stored at sector `s`. -/
def updateRec (s : Nat) (f : SymRec → SymRec) (recs : List (Nat × SymRec)) :
    List (Nat × SymRec) :=
  recs.map (fun p => if p.1 == s then (p.1, f p.2) else p)

/-- `filesys_create` from `src/pintos-solution/src/filesys/filesys.c`
(lines 42-61) on the path model.  Modelled from the spec: `dir_add` fails on
an empty name, a name longer than `NAME_MAX`, or a duplicate name; on that
failure the freshly allocated inode sector is released again, so the state
is unchanged.  On success a fresh inode sector holds a new non-symlink,
non-removed record and the directory gains the entry. -/
def filesys_create (fs : LinkFS) (name : String) : Bool × LinkFS :=
  if name.length = 0 ∨ NAME_MAX < name.length ∨ (fs.dir.lookup name).isSome then
    (false, fs)
  else
    (true, ⟨(name, fs.nextSector) :: fs.dir,
            (fs.nextSector, ⟨false, false, ""⟩) :: fs.recs,
            fs.nextSector + 1⟩)

/-- `filesys_open` from `src/pintos-solution/src/filesys/filesys.c`
(lines 124-159) on the path model: an empty path returns null immediately;
otherwise resolve the name in the root directory; a missing entry or a
removed inode is not-found; if the resolved inode's symlink flag is set,
recursively open the stored target path in place of the original
(consuming fuel); otherwise the file at the resolved sector is returned. -/
def filesys_open (fuel : Nat) (fs : LinkFS) (name : String) : Option Nat :=
  match fuel with
  | 0 => none
  | fuel + 1 =>
    if name.length = 0 then none
    else
      match fs.dir.lookup name with
      | none => none
      | some sec =>
        match fs.recs.lookup sec with
        | none => none
        | some r =>
          if r.removed then none
          else if r.is_symlink then filesys_open fuel fs r.target
          else some sec

/-- `filesys_symlink` from `src/pintos-solution/src/filesys/filesys.c`
(lines 184-193): create a 15-byte file at `linkpath`, open it, set its
symlink flag and write `target` into its content, and return the create
result.  When the open fails (the C code would then dereference a null
file), nothing further happens in the model. -/
def filesys_symlink (fuel : Nat) (fs : LinkFS) (target linkpath : String) :
    Bool × LinkFS :=
  match filesys_open fuel (filesys_create fs linkpath).2 linkpath with
  | none => ((filesys_create fs linkpath).1, (filesys_create fs linkpath).2)
  | some s =>
    ((filesys_create fs linkpath).1,
     { (filesys_create fs linkpath).2 with
       recs := updateRec s
         (fun r => { r with is_symlink := true, target := store_target target })
         ((filesys_create fs linkpath).2).recs })

theorem lookup_cons_self {α β : Type} [BEq α] [LawfulBEq α] (k : α) (v : β)
    (l : List (α × β)) : ((k, v) :: l).lookup k = some v := by
  simp [List.lookup]

theorem lookup_cons_ne {α β : Type} [BEq α] [LawfulBEq α] (k a : α) (v : β)
    (l : List (α × β)) (h : a ≠ k) : ((k, v) :: l).lookup a = l.lookup a := by
  simp [List.lookup, (by simpa using h : (a == k) = false)]

theorem updateRec_cons_self (s : Nat) (f : SymRec → SymRec) (r : SymRec)
    (recs : List (Nat × SymRec)) :
    updateRec s f ((s, r) :: recs) = (s, f r) :: updateRec s f recs := by
  simp [updateRec]

theorem updateRec_lookup_ne (s t : Nat) (f : SymRec → SymRec)
    (recs : List (Nat × SymRec)) (h : t ≠ s) :
    (updateRec s f recs).lookup t = recs.lookup t := by
  induction recs with
  | nil => rfl
  | cons p ps ih =>
    obtain ⟨k, v⟩ := p
    have hexp : updateRec s f ((k, v) :: ps)
        = (if (k == s) = true then (k, f v) else (k, v)) :: updateRec s f ps := rfl
    rw [hexp]
    by_cases hk : (k == s) = true
    · rw [if_pos hk]
      have hks : k = s := by simpa using hk
      subst hks
      rw [lookup_cons_ne k t (f v) (updateRec k f ps) h,
        lookup_cons_ne k t v ps h, ih]
    · rw [if_neg hk]
      by_cases ht : t = k
      · subst ht
        rw [lookup_cons_self, lookup_cons_self]
      · rw [lookup_cons_ne k t v (updateRec s f ps) ht,
          lookup_cons_ne k t v ps ht, ih]

/-- Evaluation of `filesys_symlink` when `linkpath` is a fresh, valid name:
the create succeeds, opening the fresh file finds it, and its record
becomes a symlink holding the stored target. -/
theorem filesys_symlink_eval (fs : LinkFS) (target linkpath : String)
    (h1 : fs.dir.lookup linkpath = none) (h2 : 0 < linkpath.length)
    (h3 : linkpath.length ≤ NAME_MAX) :
    filesys_symlink 1 fs target linkpath =
      (true, ⟨(linkpath, fs.nextSector) :: fs.dir,
              (fs.nextSector, ⟨false, true, store_target target⟩) ::
                updateRec fs.nextSector
                  (fun r => { r with is_symlink := true, target := store_target target })
                  fs.recs,
              fs.nextSector + 1⟩) := by
  have hcreate : filesys_create fs linkpath
      = (true, ⟨(linkpath, fs.nextSector) :: fs.dir,
                (fs.nextSector, ⟨false, false, ""⟩) :: fs.recs, fs.nextSector + 1⟩) := by
    rw [filesys_create, if_neg ?hc]
    case hc =>
      rintro (ha | hb | hc)
      · omega
      · omega
      · rw [h1] at hc
        exact absurd hc (by simp)
  have hl0 : ¬ linkpath.length = 0 := by omega
  have hopen1 : filesys_open 1 (filesys_create fs linkpath).2 linkpath
      = some fs.nextSector := by
    rw [hcreate]
    simp [filesys_open, hl0, lookup_cons_self]
  rw [filesys_symlink, hopen1, hcreate]
  simp [updateRec_cons_self]

/-- Evaluating `filesys_open` at positive fuel on a name bound to a
regular (non-removed, non-symlink) record yields its sector. -/
theorem filesys_open_regular (fuel : Nat) (fs : LinkFS) (name : String)
    (sec : Nat) (r : SymRec) (hl : ¬ name.length = 0)
    (hd : fs.dir.lookup name = some sec) (hr : fs.recs.lookup sec = some r)
    (hrem : r.removed = false) (hsym : r.is_symlink = false) :
    filesys_open (fuel + 1) fs name = some sec := by
  simp [filesys_open, hl, hd, hr, hrem, hsym]

/-- Evaluating `filesys_open` on a name bound to a symlink record recurses
on the stored target with one unit of fuel consumed. -/
theorem filesys_open_symlink (fuel : Nat) (fs : LinkFS) (name : String)
    (sec : Nat) (r : SymRec) (hl : ¬ name.length = 0)
    (hd : fs.dir.lookup name = some sec) (hr : fs.recs.lookup sec = some r)
    (hrem : r.removed = false) (hsym : r.is_symlink = true) :
    filesys_open (fuel + 1) fs name = filesys_open fuel fs r.target := by
  simp [filesys_open, hl, hd, hr, hrem, hsym]

/-- Evaluating `filesys_open` on a name with no directory entry yields
not-found. -/
theorem filesys_open_notfound (fuel : Nat) (fs : LinkFS) (name : String)
    (hl : ¬ name.length = 0) (hd : fs.dir.lookup name = none) :
    filesys_open (fuel + 1) fs name = none := by
  simp [filesys_open, hl, hd]

/-- C8: after `filesys_symlink target linkpath` on a fresh valid `linkpath`,
the call reports success and `filesys_open linkpath` — following the stored
target because the resolved inode's symlink flag is set — resolves to the
same inode sector (hence the same file content) as `filesys_open target`
when `target` names an existing regular file; and when the target path does
not exist, the symlink is still created successfully but opening it returns
not-found. -/
theorem filesys_symlink_resolution :
    ∀ (fs : LinkFS) (target linkpath : String) (ts : Nat) (tr : SymRec),
    (fs.dir.lookup linkpath = none → 0 < linkpath.length → linkpath.length ≤ NAME_MAX →
      0 < target.length → target.length ≤ NAME_MAX →
      fs.dir.lookup target = some ts → fs.recs.lookup ts = some tr →
      tr.is_symlink = false → tr.removed = false → ts ≠ fs.nextSector →
      (filesys_symlink 1 fs target linkpath).1 = true ∧
      filesys_open 2 (filesys_symlink 1 fs target linkpath).2 linkpath = some ts ∧
      filesys_open 1 (filesys_symlink 1 fs target linkpath).2 target = some ts)
    ∧ (fs.dir.lookup linkpath = none → 0 < linkpath.length → linkpath.length ≤ NAME_MAX →
      0 < target.length → target.length ≤ NAME_MAX → target ≠ linkpath →
      fs.dir.lookup target = none →
      (filesys_symlink 1 fs target linkpath).1 = true ∧
      filesys_open 2 (filesys_symlink 1 fs target linkpath).2 linkpath = none) := by
  intro fs target linkpath ts tr
  constructor
  · intro h1 h2 h3 h4 h5 h6 h7 h8 h9 h10
    have hstore : store_target target = target := by rw [store_target, if_pos h5]
    have heval : filesys_symlink 1 fs target linkpath =
        (true, ⟨(linkpath, fs.nextSector) :: fs.dir,
                (fs.nextSector, ⟨false, true, target⟩) ::
                  updateRec fs.nextSector
                    (fun r => { r with is_symlink := true, target := target })
                    fs.recs,
                fs.nextSector + 1⟩) := by
      have h := filesys_symlink_eval fs target linkpath h1 h2 h3
      rw [hstore] at h
      exact h
    have hl0 : ¬ linkpath.length = 0 := by omega
    have ht0 : ¬ target.length = 0 := by omega
    have htl : target ≠ linkpath := by
      intro he
      rw [he, h1] at h6
      exact absurd h6 (by simp)
    set A : LinkFS :=
      ⟨(linkpath, fs.nextSector) :: fs.dir,
       (fs.nextSector, ⟨false, true, target⟩) ::
         updateRec fs.nextSector
           (fun r => { r with is_symlink := true, target := target }) fs.recs,
       fs.nextSector + 1⟩ with hA
    have hdir_l : A.dir.lookup linkpath = some fs.nextSector := by
      rw [hA]
      exact lookup_cons_self linkpath fs.nextSector fs.dir
    have hrec_l : A.recs.lookup fs.nextSector
        = some (⟨false, true, target⟩ : SymRec) := by
      rw [hA]
      exact lookup_cons_self fs.nextSector _ _
    have hdir_t : A.dir.lookup target = some ts := by
      rw [hA]
      rw [lookup_cons_ne linkpath target fs.nextSector fs.dir htl]
      exact h6
    have hrecs_ts : A.recs.lookup ts = some tr := by
      rw [hA]
      rw [lookup_cons_ne fs.nextSector ts _ _ h10,
        updateRec_lookup_ne fs.nextSector ts _ fs.recs h10]
      exact h7
    have s1 : filesys_open 2 A linkpath = filesys_open 1 A target :=
      filesys_open_symlink 1 A linkpath fs.nextSector ⟨false, true, target⟩
        hl0 hdir_l hrec_l rfl rfl
    have s2 : filesys_open 1 A target = some ts :=
      filesys_open_regular 0 A target ts tr ht0 hdir_t hrecs_ts h9 h8
    refine ⟨by rw [heval], ?_, ?_⟩
    · rw [heval]
      show filesys_open 2 A linkpath = some ts
      rw [s1, s2]
    · rw [heval]
      show filesys_open 1 A target = some ts
      exact s2
  · intro h1 h2 h3 h4 h5 htl h6
    have hstore : store_target target = target := by rw [store_target, if_pos h5]
    have heval : filesys_symlink 1 fs target linkpath =
        (true, ⟨(linkpath, fs.nextSector) :: fs.dir,
                (fs.nextSector, ⟨false, true, target⟩) ::
                  updateRec fs.nextSector
                    (fun r => { r with is_symlink := true, target := target })
                    fs.recs,
                fs.nextSector + 1⟩) := by
      have h := filesys_symlink_eval fs target linkpath h1 h2 h3
      rw [hstore] at h
      exact h
    have hl0 : ¬ linkpath.length = 0 := by omega
    have ht0 : ¬ target.length = 0 := by omega
    set A : LinkFS :=
      ⟨(linkpath, fs.nextSector) :: fs.dir,
       (fs.nextSector, ⟨false, true, target⟩) ::
         updateRec fs.nextSector
           (fun r => { r with is_symlink := true, target := target }) fs.recs,
       fs.nextSector + 1⟩ with hA
    have hdir_l : A.dir.lookup linkpath = some fs.nextSector := by
      rw [hA]
      exact lookup_cons_self linkpath fs.nextSector fs.dir
    have hrec_l : A.recs.lookup fs.nextSector
        = some (⟨false, true, target⟩ : SymRec) := by
      rw [hA]
      exact lookup_cons_self fs.nextSector _ _
    have hdir_t : A.dir.lookup target = none := by
      rw [hA]
      rw [lookup_cons_ne linkpath target fs.nextSector fs.dir htl]
      exact h6
    have s1 : filesys_open 2 A linkpath = filesys_open 1 A target :=
      filesys_open_symlink 1 A linkpath fs.nextSector ⟨false, true, target⟩
        hl0 hdir_l hrec_l rfl rfl
    have s2 : filesys_open 1 A target = none :=
      filesys_open_notfound 0 A target ht0 hdir_t
    refine ⟨by rw [heval], ?_⟩
    rw [heval]
    show filesys_open 2 A linkpath = none
    rw [s1, s2]

/-- C8 witness: with `target.txt` an existing regular file at sector 2,
`filesys_symlink "target.txt" "link.txt"` succeeds and opening the link
resolves to sector 2, the same sector opening the target resolves to. -/
theorem filesys_symlink_resolution_witness :
    (filesys_symlink 1
        ⟨[("target.txt", 2)], [(2, ⟨false, false, ""⟩)], 3⟩ "target.txt" "link.txt").1
      = true ∧
    filesys_open 2
        (filesys_symlink 1
          ⟨[("target.txt", 2)], [(2, ⟨false, false, ""⟩)], 3⟩ "target.txt" "link.txt").2
        "link.txt" = some 2 ∧
    filesys_open 1
        (filesys_symlink 1
          ⟨[("target.txt", 2)], [(2, ⟨false, false, ""⟩)], 3⟩ "target.txt" "link.txt").2
        "target.txt" = some 2 :=
  (filesys_symlink_resolution
      ⟨[("target.txt", 2)], [(2, ⟨false, false, ""⟩)], 3⟩ "target.txt" "link.txt" 2
      ⟨false, false, ""⟩).1
    (by decide) (by decide) (by decide) (by decide) (by decide)
    (by decide) (by decide) (by decide) (by decide) (by decide)

/-- C10: `filesys_open` called with the empty string as the whole path
returns null immediately (`strlen(name) == 0` is checked before any
directory-module call), for every filesystem state and fuel. -/
theorem filesys_open_empty_path (fuel : Nat) (fs : LinkFS) :
    filesys_open fuel fs "" = none := by
  cases fuel with
  | zero => rfl
  | succ n => simp [filesys_open]

end Path
